import Mathlib

/-!
Verification development for the TissueMAPS raster/vector core.

The development shallowly embeds, in Lean 4:
  * the border classifier of `python/jtlib/utils.py`
    (`find_border_objects`, `get_border_ids`);
  * the tile geometry resolver of `tmlib/models/site.py`
    (`Site.offset`, `Site.aligned_offset`);
  * the polygonization engine
    (`SegmentedObjects.to_polygons` of
     `src/lib/tmlib/workflow/jterator/handles.py`);
  * the rasterization engine (`SegmentedObjects.from_polygons`, same file).

Modelling conventions:
  * numpy label rasters become `Grid := List (List Nat)` (row major,
    value 0 = background); single 2-D planes, which is what every claim
    under study quantifies over;
  * machine integers become `Nat`/`Int` (label values are non-negative by
    the segmentation contract, geometric coordinates are signed);
  * the third-party geometry primitives used by the engines
    (`cv2.findContours`, `shapely`'s `simplify`/`is_valid`/`buffer(0)`/
    `area`, `skimage.draw.polygon`) are not part of this repository; they
    are abstracted as the fields of a `Geo` structure and theorems
    quantify over them, adding only hypotheses that restate behaviour the
    repository's own docstrings rely on (for instance: tolerance 0 keeps
    the original contour, a contour search on an all-background mask
    yields no contours);
  * fallible code returns `Except`.
-/

/-! ## Generic list helpers -/

/-- Map a function that also receives the element's index, starting at `k`.
Used to embed numpy row/column indexed slice assignments. -/
def mapWithIdx (f : Nat → α → β) : Nat → List α → List β
  | _, [] => []
  | k, a :: l => f k a :: mapWithIdx f (k + 1) l

theorem length_mapWithIdx (f : Nat → α → β) (k : Nat) (l : List α) :
    (mapWithIdx f k l).length = l.length := by
  induction l generalizing k with
  | nil => rfl
  | cons a l ih => simp [mapWithIdx, ih]

theorem get?_mapWithIdx (f : Nat → α → β) (k : Nat) (l : List α) (i : Nat) :
    (mapWithIdx f k l).get? i = (l.get? i).map (f (k + i)) := by
  induction l generalizing k i with
  | nil => cases i <;> rfl
  | cons a l ih =>
    cases i with
    | zero => rfl
    | succ i =>
      simp only [mapWithIdx, List.get?_cons_succ, ih]
      have : k + (i + 1) = (k + 1) + i := by omega
      rw [this]

theorem mem_mapWithIdx {f : Nat → α → β} {k : Nat} {l : List α} {b : β}
    (h : b ∈ mapWithIdx f k l) :
    ∃ i a, l.get? i = some a ∧ b = f (k + i) a := by
  induction l generalizing k with
  | nil => cases h
  | cons a l ih =>
    rcases List.mem_cons.1 h with h0 | h1
    · exact ⟨0, a, rfl, h0⟩
    · rcases ih h1 with ⟨i, a', hget, hval⟩
      refine ⟨i + 1, a', hget, ?_⟩
      have : k + (i + 1) = (k + 1) + i := by omega
      rw [this]; exact hval

/-! ## Rasters -/

/-- A single 2-D labeled raster plane: row-major list of rows, value `0`
denotes background, positive values are object labels. -/
abbrev Grid := List (List Nat)

/-- Element access with numpy-style `[i][j]` semantics (defaulting to
background outside the grid; theorems only use in-range accesses). -/
def cell (g : Grid) (i j : Nat) : Nat := (g.getD i []).getD j 0

/-- Embeds `np.unique(xs)` for non-negative integer data: the sorted list
of distinct values occurring in `xs`. -/
def npUnique (xs : List Nat) : List Nat :=
  (List.range (xs.foldr max 0 + 1)).filter (fun v => decide (v ∈ xs))

theorem npUnique_sorted (xs : List Nat) : (npUnique xs).Sorted (· < ·) :=
  List.Pairwise.filter _ (List.pairwise_lt_range _)

theorem npUnique_nodup (xs : List Nat) : (npUnique xs).Nodup :=
  (npUnique_sorted xs).nodup

theorem le_foldr_max {xs : List Nat} {v : Nat} (h : v ∈ xs) :
    v ≤ xs.foldr max 0 := by
  induction xs with
  | nil => cases h
  | cons a l ih =>
    rcases List.mem_cons.1 h with rfl | h'
    · exact le_max_left _ _
    · exact le_trans (ih h') (le_max_right _ _)

theorem mem_npUnique {xs : List Nat} {v : Nat} : v ∈ npUnique xs ↔ v ∈ xs := by
  constructor
  · intro h
    exact of_decide_eq_true (List.mem_filter.1 h).2
  · intro h
    refine List.mem_filter.2 ⟨List.mem_range.2 ?_, decide_eq_true h⟩
    exact Nat.lt_succ_of_le (le_foldr_max h)

/-! ## Border classifier — `python/jtlib/utils.py`

`find_border_objects` (lines 139-161) and `get_border_ids` (lines 58-80)
share the same structure: collect the unique values of the first row, last
row, first column and last column, drop `0`, and compare against
`np.unique(im[im != 0])`. -/

/-- `np.unique(im[im != 0])`: the ascending list of distinct nonzero
labels of the raster. -/
def distinct_labels (g : Grid) : List Nat :=
  npUnique (g.flatten.filter (fun v => decide (v ≠ 0)))

/-- `im[0, :]`. -/
def firstRow (g : Grid) : List Nat := g.headD []

/-- `im[-1, :]`. -/
def lastRow (g : Grid) : List Nat := g.getLastD []

/-- `im[:, 0]`. -/
def firstCol (g : Grid) : List Nat := g.map (fun row => row.headD 0)

/-- `im[:, -1]`. -/
def lastCol (g : Grid) : List Nat := g.map (fun row => row.getLastD 0)

/-- The `border_ids` set of both functions:
`reduce(set.union, map(set, edges)).difference(set([0]))`. Both source
functions build it from `np.unique` of each of the four edges; only
membership in the set is ever used, so a list with the same members is a
faithful embedding. -/
def borderIdSet (g : Grid) : List Nat :=
  (npUnique (firstRow g) ++ npUnique (lastRow g) ++
   npUnique (firstCol g) ++ npUnique (lastCol g)).filter (fun v => decide (v ≠ 0))

/-- `get_border_ids` (utils.py lines 58-80):
`[i for i in object_ids if i in border_ids]`. -/
def get_border_ids (g : Grid) : List Nat :=
  (distinct_labels g).filter (fun i => decide (i ∈ borderIdSet g))

/-- `find_border_objects` (utils.py lines 139-161):
`[1 if o in border_ids else 0 for o in object_ids]`. -/
def find_border_objects (g : Grid) : List Nat :=
  (distinct_labels g).map (fun o => if o ∈ borderIdSet g then 1 else 0)

theorem distinct_labels_of_all_zero {g : Grid}
    (h : ∀ v ∈ g.flatten, v = 0) : distinct_labels g = [] := by
  unfold distinct_labels
  have : g.flatten.filter (fun v => decide (v ≠ 0)) = [] := by
    apply List.filter_eq_nil_iff.2
    intro v hv
    simp [h v hv]
  rw [this]
  rfl

/-! ## Tile geometry resolver — `tmlib/models/site.py` -/

/-- The experiment-level stage-drift correction parameters read by
`Site.offset`. The `Experiment` model itself is not among the provided
source files; only these two attributes are consumed. -/
structure ExperimentRec where
  vertical_site_displacement : Int
  horizontal_site_displacement : Int
deriving DecidableEq

/-- Parent plate; `Site.offset` only reaches it as `well.plate.experiment`. -/
structure PlateRec where
  experiment : ExperimentRec
deriving DecidableEq

/-- Modelled from the spec: `tmlib/models/well.py` is not among the
provided source files. Per spec §4.1(c) a well contributes "the
recursively computed offset of the tile's parent Well (itself the sum of
its position within the Plate, recursively)"; the site-level code consumes
it only as the pair `well.offset`, embedded here as a field. -/
structure WellRec where
  plate : PlateRec
  offset : Int × Int
deriving DecidableEq

/-- Cross-cycle alignment metadata (`site.intersection`, a
`SiteIntersection` record defined in the alignment module, which is not
among the provided source files). `Site.aligned_offset` reads
`lower_overhang` and `right_overhang`; the sibling properties read the
other two. -/
structure SiteIntersectionRec where
  upper_overhang : Int
  lower_overhang : Int
  left_overhang : Int
  right_overhang : Int
deriving DecidableEq

/-- `Site` (site.py): row index `y`, column index `x`, pixel `height` and
`width`, parent well, and optional alignment metadata. -/
structure SiteRec where
  y : Int
  x : Int
  height : Int
  width : Int
  well : WellRec
  intersection : Option SiteIntersectionRec
deriving DecidableEq

/-- `Site.image_size` (site.py lines 120-125). -/
def SiteRec.image_size (s : SiteRec) : Int × Int := (s.height, s.width)

/-- `Site.offset` (site.py lines 134-159). -/
def SiteRec.offset (s : SiteRec) : Int × Int :=
  (s.y * s.image_size.1 +
     s.y * s.well.plate.experiment.vertical_site_displacement +
     s.well.offset.1,
   s.x * s.image_size.2 +
     s.x * s.well.plate.experiment.horizontal_site_displacement +
     s.well.offset.2)

/-- `Site.aligned_offset` (site.py lines 187-200). -/
def SiteRec.aligned_offset (s : SiteRec) : Int × Int :=
  match s.intersection with
  | some inter => (s.offset.1 + inter.lower_overhang, s.offset.2 + inter.right_overhang)
  | none => s.offset

/-- The offset formula exactly as claim C5 words it: row index times own
pixel height plus row index times the vertical displacement correction
plus the parent well's offset, and the symmetric column expression. -/
def offsetClaimFormula (s : SiteRec) : Int × Int :=
  (s.y * s.height + s.y * s.well.plate.experiment.vertical_site_displacement +
     s.well.offset.1,
   s.x * s.width + s.x * s.well.plate.experiment.horizontal_site_displacement +
     s.well.offset.2)

/-! ## Claims C6, C5, C7 -/

/-- C6: for every labeled single-plane raster, `get_border_ids` (the
"border labels") is a subset of `distinct_labels`; `find_border_objects`
is a `{0,1}` sequence of the same length as the ascending distinct label
list, aligned with it and flagging exactly the border labels; both are
empty on an all-background raster. The functions are pure Lean functions
of the grid, so the input raster is not mutated by construction. -/
theorem border_classifier_contract (g : Grid) :
    (∀ l ∈ get_border_ids g, l ∈ distinct_labels g) ∧
    (find_border_objects g).length = (distinct_labels g).length ∧
    (distinct_labels g).Sorted (· < ·) ∧
    (∀ i l, (distinct_labels g).get? i = some l →
      (find_border_objects g).get? i =
        some (if l ∈ get_border_ids g then 1 else 0)) ∧
    (∀ v ∈ find_border_objects g, v = 0 ∨ v = 1) ∧
    ((∀ v ∈ g.flatten, v = 0) →
      get_border_ids g = [] ∧ find_border_objects g = []) := by
  refine ⟨?_, ?_, ?_, ?_, ?_, ?_⟩
  · intro l hl
    exact (List.mem_filter.1 hl).1
  · exact List.length_map _ _
  · exact npUnique_sorted _
  · intro i l h
    have hmem : l ∈ distinct_labels g := List.get?_mem h
    have hiff : (l ∈ get_border_ids g) ↔ l ∈ borderIdSet g := by
      unfold get_border_ids
      simp [List.mem_filter, hmem]
    rw [find_border_objects, List.get?_map, h]
    simp only [Option.map_some']
    exact congrArg some (if_congr hiff (Eq.refl 1) (Eq.refl 0)).symm
  · intro v hv
    rcases List.mem_map.1 hv with ⟨o, _, rfl⟩
    by_cases hb : o ∈ borderIdSet g
    · right; rw [if_pos hb]
    · left; rw [if_neg hb]
  · intro hz
    have hd := distinct_labels_of_all_zero hz
    constructor
    · rw [get_border_ids, hd]; rfl
    · rw [find_border_objects, hd]; rfl

theorem border_classifier_contract_witness :
    (find_border_objects [[1, 0], [0, 2]]).length =
      (distinct_labels [[1, 0], [0, 2]]).length ∧
    (get_border_ids [[0, 0], [0, 0]] = [] ∧
      find_border_objects [[0, 0], [0, 0]] = []) :=
  ⟨(border_classifier_contract [[1, 0], [0, 2]]).2.1,
   (border_classifier_contract [[0, 0], [0, 0]]).2.2.2.2.2 (by decide)⟩

/-- C5: for every site with complete well/plate ancestry (in the
embedding, ancestry is total), `Site.offset` equals the pair
(row * height + row * vertical_site_displacement + well_offset_y,
 col * width + col * horizontal_site_displacement + well_offset_x). -/
theorem site_offset_formula (s : SiteRec) : s.offset = offsetClaimFormula s := rfl

/-- A concrete site whose alignment metadata exists but has zero
lower/right overhangs. -/
def siteZeroOverhang : SiteRec :=
  ⟨0, 0, 10, 12, ⟨⟨⟨1, 2⟩⟩, (5, 7)⟩, some ⟨0, 0, 0, 0⟩⟩

/-- C7 counterexample: the claimed biconditional "aligned_offset = offset
exactly when the tile has no overhang metadata" fails on a site that has
alignment metadata with zero lower and right overhangs: the offsets are
equal, yet metadata exists. -/
theorem aligned_offset_iff_fails :
    ¬ (siteZeroOverhang.aligned_offset = siteZeroOverhang.offset ↔
        siteZeroOverhang.intersection = none) := by decide

/-- C7 amended: `aligned_offset` equals `offset` when there is no
alignment metadata; when metadata exists it equals `offset` plus
(lower_overhang, right_overhang); consequently the two agree exactly when
there is no metadata or both of those overhangs are zero. -/
theorem aligned_offset_characterization (s : SiteRec) :
    (s.intersection = none → s.aligned_offset = s.offset) ∧
    (∀ i, s.intersection = some i →
      s.aligned_offset =
        (s.offset.1 + i.lower_overhang, s.offset.2 + i.right_overhang)) ∧
    (s.aligned_offset = s.offset ↔
      s.intersection = none ∨
        ∃ i, s.intersection = some i ∧
          i.lower_overhang = 0 ∧ i.right_overhang = 0) := by
  refine ⟨fun h => ?_, fun i h => ?_, ?_⟩
  · simp [SiteRec.aligned_offset, h]
  · simp [SiteRec.aligned_offset, h]
  · cases hs : s.intersection with
    | none => simp [SiteRec.aligned_offset, hs]
    | some i =>
      constructor
      · intro h
        have h0 : s.aligned_offset
            = (s.offset.1 + i.lower_overhang, s.offset.2 + i.right_overhang) := by
          simp [SiteRec.aligned_offset, hs]
        have h' : (s.offset.1 + i.lower_overhang, s.offset.2 + i.right_overhang)
            = s.offset := h0.symm.trans h
        have h1 : s.offset.1 + i.lower_overhang = s.offset.1 := congrArg Prod.fst h'
        have h2 : s.offset.2 + i.right_overhang = s.offset.2 := congrArg Prod.snd h'
        refine Or.inr ⟨i, rfl, ?_, ?_⟩
        · omega
        · omega
      · rintro (h | ⟨j, hj, hl, hr⟩)
        · cases h
        · injection hj with hij
          subst hij
          simp [SiteRec.aligned_offset, hs, hl, hr]

/-- A concrete site without alignment metadata. -/
def siteNoInter : SiteRec := ⟨2, 3, 10, 12, ⟨⟨⟨1, 2⟩⟩, (5, 7)⟩, none⟩

/-- A concrete site with nonzero alignment metadata. -/
def siteWithInter : SiteRec := ⟨2, 3, 10, 12, ⟨⟨⟨1, 2⟩⟩, (5, 7)⟩, some ⟨1, 3, 2, 4⟩⟩

theorem aligned_offset_characterization_witness :
    siteNoInter.aligned_offset = siteNoInter.offset ∧
    siteWithInter.aligned_offset =
      (siteWithInter.offset.1 + 3, siteWithInter.offset.2 + 4) :=
  ⟨(aligned_offset_characterization siteNoInter).1 rfl,
   (aligned_offset_characterization siteWithInter).2.1 ⟨1, 3, 2, 4⟩ rfl⟩

/-! ## Polygonization engine — `SegmentedObjects.to_polygons`
(`src/lib/tmlib/workflow/jterator/handles.py`, lines 307-472)

Contours are lists of `(x, y)` points, as returned by OpenCV. A cv2
contour is an `(n, 1, 2)` integer array; the code passes it through
`np.squeeze`, which yields an `(n, 2)` array for `n ≥ 2` but a 1-D
two-element array for `n = 1` — that is why the source's degeneracy test
`shell.ndim < 2 or shell.shape[0] < 3` is, for contours as point lists,
exactly `length < 3`. -/

/-- An `(x, y)` contour point. -/
abbrev Pt := Int × Int

abbrev Contour := List Pt

/-- One row of the cv2 `RETR_CCOMP` hierarchy array
`hierarchy[0][i] = [next, previous, first_child, parent]`; `-1` encodes
"none". -/
structure HierEntry where
  nxt : Int
  prev : Int
  child : Int
  parent : Int
deriving DecidableEq

/-- A shapely polygon: an exterior shell ring plus interior hole rings. -/
structure JPoly where
  shell : List Pt
  holes : List (List Pt)
deriving DecidableEq

/-- A shapely geometry as far as `to_polygons` distinguishes one: a
`Polygon` or a `MultiPolygon` (the possible results of `buffer(0)`). -/
inductive SGeom where
  | poly (p : JPoly)
  | multi (ps : List JPoly)
deriving DecidableEq

/-- The third-party geometry primitives used by the two engines, kept
abstract: `cv2.findContours(mask, RETR_CCOMP, CHAIN_APPROX_SIMPLE)`,
shapely's `simplify(tolerance, preserve_topology=True)`, `is_valid`,
`buffer(0)` and `area`, and `skimage.draw.polygon(r, c)` (which maps the
row and column coordinate lists of a polygon's vertices to the row and
column lists of the filled pixels). Theorems quantify over this
structure. -/
structure Geo where
  findContours : List (List Bool) → List Contour × List HierEntry
  simplify : JPoly → Nat → JPoly
  isValid : SGeom → Bool
  buffer0 : JPoly → SGeom
  area : JPoly → Int
  drawPolygon : List Int → List Int → List Int × List Int

/-- Errors surfaced by `to_polygons`: the `ValueError` naming the
offending label raised when a polygon stays invalid after the buffer
repair, and the Python `NameError` that an ill-formed hierarchy (one that
cv2 never produces) would trigger by leaving `shell` unassigned. -/
inductive JtError where
  | invalidPolygon (label : Nat)
  | nameError
deriving DecidableEq

/-- The `(row, col)` coordinates of the pixels carrying `label`
(`np.where(value == label)`, row-major order). -/
def labelPixels (g : Grid) (label : Nat) : List (Nat × Nat) :=
  g.enum.bind (fun r =>
    (r.2.enum.filter (fun c => c.2 == label)).map (fun c => (r.1, c.1)))

/-- Minimum of a list of naturals (only used on nonempty lists). -/
def natMinList : List Nat → Nat
  | [] => 0
  | a :: t => t.foldl min a

/-- Maximum of a list of naturals. -/
def natMaxList (l : List Nat) : Nat := l.foldl max 0

/-- Maximum of a list of integers (only used on nonempty lists). -/
def intMaxList : List Int → Int
  | [] => 0
  | a :: t => t.foldl max a

/-- A `mahotas.labeled.bbox` bounding box: `[min_row, max_row + 1,
min_col, max_col + 1]`, all zero for an absent label. -/
structure BBox where
  y0 : Nat
  y1 : Nat
  x0 : Nat
  x1 : Nat
deriving DecidableEq

/-- `mh.labeled.bbox(plane)[label]` (handles.py line 350; computed before
the border pixels are zeroed). -/
def mhBBox (g : Grid) (label : Nat) : BBox :=
  let pts := labelPixels g label
  if pts.isEmpty then ⟨0, 0, 0, 0⟩
  else ⟨natMinList (pts.map Prod.fst), natMaxList (pts.map Prod.fst) + 1,
        natMinList (pts.map Prod.snd), natMaxList (pts.map Prod.snd) + 1⟩

/-- The border zeroing of handles.py lines 355-358 (`plane[0,:] = 0`,
`plane[-1,:] = 0`, `plane[:,0] = 0`, `plane[:,-1] = 0`) applied to a copy
of the plane. -/
def zeroBorder (g : Grid) : Grid :=
  mapWithIdx (fun i row =>
    mapWithIdx (fun j v =>
      if i = 0 ∨ i = g.length - 1 ∨ j = 0 ∨ j = row.length - 1 then 0 else v)
      0 row) 0 g

/-- Modelled from the spec: `jtlib.utils.extract_bbox_image(plane, bbox,
pad=1)` is not among the provided source files; per spec §4.3 step 2 it
extracts the bounding-box crop of the plane "1-pixel-padded", i.e.
surrounded by one line of zero pixels on every side (consistent with the
inverse translation `bbox[0] - 1`, `bbox[2] - 1` applied by the caller at
handles.py lines 437-438). -/
def extract_bbox_image (g : Grid) (b : BBox) : Grid :=
  let core := ((g.drop b.y0).take (b.y1 - b.y0)).map
      (fun row => (row.drop b.x0).take (b.x1 - b.x0))
  let padRow := List.replicate (b.x1 - b.x0 + 2) 0
  [padRow] ++ core.map (fun row => 0 :: (row ++ [0])) ++ [padRow]

/-- `mask = obj_im == label` (handles.py line 368). -/
def labelMask (plane : Grid) (b : BBox) (label : Nat) : List (List Bool) :=
  (extract_bbox_image plane b).map (List.map (fun v => v == label))

/-- The degenerate square ring
`np.array([[x-1, x+1, x+1, x-1, x-1], [y-1, y-1, y+1, y+1, y-1]]).T`
(handles.py lines 386-389 and 430-433). -/
def squarePts (x y : Int) : List Pt :=
  [(x - 1, y - 1), (x + 1, y - 1), (x + 1, y + 1), (x - 1, y + 1), (x - 1, y - 1)]

/-- The zero-contour fallback shell (handles.py lines 384-389): the
degenerate square at the integer mean of the coordinates of all pixels of
`self.value` equal to the label (`np.mean` truncated by `astype(int)`;
the mean of non-negative integers truncates to the floor, i.e. natural
division). -/
def centroidSquare (value : Grid) (label : Nat) : List Pt :=
  let coords := labelPixels value label
  let y : Nat := (coords.map Prod.fst).sum / coords.length
  let x : Nat := (coords.map Prod.snd).sum / coords.length
  squarePts (Int.ofNat x) (Int.ofNat y)

/-- The too-few-points fallback shell (handles.py lines 427-433):
`y, x = np.array(mask.shape) / 2` (integer floor division) and the same
degenerate square. -/
def halfSquare (obj_im : Grid) : List Pt :=
  squarePts (Int.ofNat ((obj_im.headD []).length / 2)) (Int.ofNat (obj_im.length / 2))

/-- `lengths.index(np.max(lengths))` applied to the contours
(handles.py lines 414-416): the first contour of maximal point count. -/
def largestContour (cs : List Contour) : Contour :=
  let lengths := cs.map List.length
  cs.getD (lengths.indexOf (natMaxList lengths)) []

/-- The classification loop of handles.py lines 399-417, iterating over
the hierarchy rows in contour order: a row with a parent assigns the
shell (to that parent contour); otherwise a row with a first child
appends that child contour to the holes; a row with neither (two contours
on the same hierarchy level) takes the largest contour as shell and
breaks out of the loop. The shell starts out unassigned (`none`). -/
def classifyGo (cs : List Contour) :
    List HierEntry → Option Contour → List Contour → Option Contour × List Contour
  | [], shell, holes => (shell, holes)
  | e :: rest, shell, holes =>
    if 0 ≤ e.parent then
      classifyGo cs rest (some (cs.getD e.parent.toNat [])) holes
    else if 0 ≤ e.child then
      classifyGo cs rest shell (holes ++ [cs.getD e.child.toNat []])
    else (some (largestContour cs), holes)

/-- The loop runs for `i in range(len(contours))`; cv2 returns exactly one
hierarchy row per contour, embedded by truncating the row list to the
contour count. -/
def classifyContours (cs : List Contour) (hs : List HierEntry) :
    Option Contour × List Contour :=
  classifyGo cs (hs.take cs.length) none []

/-- The three-way branch on the number of contours (handles.py lines
376-420), producing the pre-translation shell and hole list, or `none`
when the multi-contour loop leaves the shell unassigned (Python would
raise `NameError` on an ill-formed hierarchy). -/
def resolveShell (geo : Geo) (value plane : Grid) (b : BBox) (label : Nat) :
    Option (List Pt × List (List Pt)) :=
  let fc := geo.findContours (labelMask plane b label)
  if fc.1.length = 0 then some (centroidSquare value label, [])
  else if 1 < fc.1.length then
    match classifyContours fc.1 fc.2 with
    | (some shell, holes) => some (shell, holes)
    | (none, _) => none
  else some (fc.1.getD 0 [], [])

/-- The `shell.ndim < 2 or shell.shape[0] < 3` repair (handles.py lines
422-433): a shell of fewer than three points is replaced by the
mask-centered degenerate square; the hole list is left as it was. -/
def fixSmallShell (obj_im : Grid) (sh : List Pt × List (List Pt)) :
    List Pt × List (List Pt) :=
  if sh.1.length < 3 then (halfSquare obj_im, sh.2) else sh

/-- The coordinate translation of handles.py lines 435-444: add the
global offset plus the crop origin to each point and invert the sign of
the y-coordinate. -/
def translatePt (add_y add_x : Int) (p : Pt) : Pt := (p.1 + add_x, -(p.2 + add_y))

/-- The translation applied to shell and holes, then assembled into
`shapely.geometry.Polygon(shell, holes)` (handles.py line 445). -/
def translatePoly (add_y add_x : Int) (sh : List Pt × List (List Pt)) : JPoly :=
  ⟨sh.1.map (translatePt add_y add_x), sh.2.map (List.map (translatePt add_y add_x))⟩

/-- Everything `to_polygons` does for one label before the
simplify/validity step: contour search on the padded bounding-box crop of
the zeroed plane, shell/hole resolution, small-shell repair, and
translation by `add_y = y_offset + bbox[0] - 1`,
`add_x = x_offset + bbox[2] - 1`. -/
def buildPolyForLabel (geo : Geo) (value plane : Grid) (b : BBox) (label : Nat)
    (y_offset x_offset : Int) : Option JPoly :=
  (resolveShell geo value plane b label).map (fun sh =>
    translatePoly (y_offset + Int.ofNat b.y0 - 1) (x_offset + Int.ofNat b.x0 - 1)
      (fixSmallShell (extract_bbox_image plane b) sh))

/-- `areas.index(np.max(areas))` over the pieces of a repaired
`MultiPolygon` (handles.py lines 468-470). -/
def largestPoly (geo : Geo) (ps : List JPoly) : JPoly :=
  let areas := ps.map geo.area
  ps.getD (areas.indexOf (intMaxList areas)) ⟨[], []⟩

/-- The simplify / validity / repair step of handles.py lines 446-470:
simplify to the tolerance; if the result is invalid, repair with
`buffer(0)`; if still invalid, raise the `ValueError` naming the label;
if the repair produced a `MultiPolygon`, keep the largest piece. -/
def validityGate (geo : Geo) (label : Nat) (tol : Nat) (p : JPoly) :
    Except JtError JPoly :=
  let p1 := geo.simplify p tol
  if geo.isValid (SGeom.poly p1) then .ok p1
  else if geo.isValid (geo.buffer0 p1) = false then .error (.invalidPolygon label)
  else match geo.buffer0 p1 with
    | SGeom.poly q => .ok q
    | SGeom.multi qs => .ok (largestPoly geo qs)

/-- The full per-label step of the `for label in self.labels` loop. -/
def processLabel (geo : Geo) (value plane : Grid) (label : Nat)
    (y_offset x_offset : Int) (tol : Nat) : Except JtError JPoly :=
  match buildPolyForLabel geo value plane (mhBBox value label) label y_offset x_offset with
  | none => .error .nameError
  | some p => validityGate geo label tol p

/-- `SegmentedObjects.labels` (handles.py lines 302-305):
`np.unique(self.value[self.value > 0])`. -/
def objLabels (g : Grid) : List Nat :=
  npUnique (g.flatten.filter (fun v => decide (0 < v)))

/-- The label loop of `to_polygons`, accumulating
`polygons[(t, z, label)] = poly` entries in label order; the first raised
error aborts the whole call. -/
def to_polygonsGo (geo : Geo) (value plane : Grid) (y_offset x_offset : Int)
    (tol : Nat) : List Nat → Except JtError (List ((Nat × Nat × Nat) × JPoly))
  | [] => .ok []
  | l :: ls =>
    match processLabel geo value plane l y_offset x_offset tol with
    | .error e => .error e
    | .ok p =>
      match to_polygonsGo geo value plane y_offset x_offset tol ls with
      | .error e => .error e
      | .ok rest => .ok (((0, 0, l), p) :: rest)

/-- `SegmentedObjects.to_polygons(y_offset, x_offset, tolerance)` for a
2-D (single-plane) raster: the plane loop then runs exactly once with
`t = z = 0`; the bounding boxes are computed before the border zeroing,
the working plane is the zero-bordered copy, and the label list and the
fallback centroids read the untouched `self.value`. -/
def to_polygons (geo : Geo) (value : Grid) (y_offset x_offset : Int) (tol : Nat) :
    Except JtError (List ((Nat × Nat × Nat) × JPoly)) :=
  to_polygonsGo geo value (zeroBorder value) y_offset x_offset tol (objLabels value)

/-! ## Characterizing the label loop -/

theorem to_polygonsGo_ok_keys {geo : Geo} {value plane : Grid}
    {y_offset x_offset : Int} {tol : Nat} {ls : List Nat}
    {m : List ((Nat × Nat × Nat) × JPoly)}
    (h : to_polygonsGo geo value plane y_offset x_offset tol ls = .ok m) :
    m.map Prod.fst = ls.map (fun l => ((0, 0, l) : Nat × Nat × Nat)) := by
  induction ls generalizing m with
  | nil =>
    simp only [to_polygonsGo] at h
    cases h
    rfl
  | cons l ls ih =>
    simp only [to_polygonsGo] at h
    cases hp : processLabel geo value plane l y_offset x_offset tol with
    | error e => rw [hp] at h; cases h
    | ok p =>
      rw [hp] at h
      cases hr : to_polygonsGo geo value plane y_offset x_offset tol ls with
      | error e => rw [hr] at h; cases h
      | ok rest =>
        rw [hr] at h
        cases h
        simp [ih hr]

theorem to_polygonsGo_ok_mem {geo : Geo} {value plane : Grid}
    {y_offset x_offset : Int} {tol : Nat} {ls : List Nat}
    {m : List ((Nat × Nat × Nat) × JPoly)}
    (h : to_polygonsGo geo value plane y_offset x_offset tol ls = .ok m)
    (k : Nat × Nat × Nat) (p : JPoly) :
    (k, p) ∈ m ↔ ∃ l ∈ ls, k = (0, 0, l) ∧
      processLabel geo value plane l y_offset x_offset tol = .ok p := by
  induction ls generalizing m with
  | nil =>
    simp only [to_polygonsGo] at h
    cases h
    simp
  | cons l ls ih =>
    simp only [to_polygonsGo] at h
    cases hp : processLabel geo value plane l y_offset x_offset tol with
    | error e => rw [hp] at h; cases h
    | ok q =>
      rw [hp] at h
      cases hr : to_polygonsGo geo value plane y_offset x_offset tol ls with
      | error e => rw [hr] at h; cases h
      | ok rest =>
        rw [hr] at h
        cases h
        constructor
        · intro hm
          rcases List.mem_cons.1 hm with he | hm'
          · refine ⟨l, List.mem_cons_self _ _, ?_, ?_⟩
            · exact congrArg Prod.fst he
            · have hpq : p = q := congrArg Prod.snd he
              rw [hpq, hp]
          · rcases (ih hr).1 hm' with ⟨l', hl', hk, hpl⟩
            exact ⟨l', List.mem_cons_of_mem _ hl', hk, hpl⟩
        · rintro ⟨l', hl', rfl, hpl⟩
          rcases List.mem_cons.1 hl' with rfl | hl''
          · rw [hp] at hpl
            cases hpl
            exact List.mem_cons_self _ _
          · exact List.mem_cons_of_mem _ ((ih hr).2 ⟨l', hl'', rfl, hpl⟩)

/-! ## Claim C2 -/

/-- C2: for every single-plane raster whose polygons are all repairable
(the call returns without raising), the mapping returned by `to_polygons`
has exactly one entry per distinct nonzero label — the key list is the
ascending distinct label list (which has no duplicates), keyed by
`(t, z, label) = (0, 0, label)`, so no label is ever dropped. -/
theorem to_polygons_one_entry_per_label (geo : Geo) (value : Grid)
    (y_offset x_offset : Int) (tol : Nat)
    (m : List ((Nat × Nat × Nat) × JPoly))
    (h : to_polygons geo value y_offset x_offset tol = .ok m) :
    m.map Prod.fst = (objLabels value).map (fun l => ((0, 0, l) : Nat × Nat × Nat)) ∧
    (objLabels value).Nodup ∧
    m.length = (objLabels value).length := by
  have hk := to_polygonsGo_ok_keys h
  refine ⟨hk, npUnique_nodup _, ?_⟩
  have hlen := congrArg List.length hk
  simpa using hlen

/-- A concrete geometry-library instance: no contours are ever found (all
objects take the degenerate-square fallback), simplification returns its
input, every geometry is valid. -/
def geoTriv : Geo :=
  ⟨fun _ => ([], []), fun p _ => p, fun _ => true, fun p => SGeom.poly p,
   fun _ => 0, fun r c => (r, c)⟩

/-- A 3×3 raster with a single one-pixel object of label 1. -/
def vTiny : Grid := [[0, 0, 0], [0, 1, 0], [0, 0, 0]]

/-- The polygon `to_polygons geoTriv vTiny 0 0 0` produces for label 1. -/
def pTiny : JPoly := ⟨[(0, 0), (2, 0), (2, -2), (0, -2), (0, 0)], []⟩

theorem to_polygons_one_entry_per_label_witness :
    ([((0, 0, 1), pTiny)].map Prod.fst
        = (objLabels vTiny).map (fun l => ((0, 0, l) : Nat × Nat × Nat))) ∧
    (objLabels vTiny).Nodup ∧
    ([((0, 0, 1), pTiny)] : List ((Nat × Nat × Nat) × JPoly)).length
        = (objLabels vTiny).length :=
  to_polygons_one_entry_per_label geoTriv vTiny 0 0 0 [((0, 0, 1), pTiny)] rfl

/-! ## Claim C3 -/

theorem classifyGo_snd_of_no_break (cs : List Contour) :
    ∀ (l : List HierEntry) (shell : Option Contour) (holes : List Contour),
    (∀ e ∈ l, 0 ≤ e.parent ∨ 0 ≤ e.child) →
    (classifyGo cs l shell holes).2 =
      holes ++ (l.filter (fun e => decide (e.parent < 0) && decide (0 ≤ e.child))).map
        (fun e => cs.getD e.child.toNat []) := by
  intro l
  induction l with
  | nil => intro shell holes _; simp [classifyGo]
  | cons e rest ih =>
    intro shell holes hnb
    by_cases hp : 0 ≤ e.parent
    · have hnp : ¬ e.parent < 0 := not_lt.2 hp
      simp only [classifyGo, if_pos hp]
      rw [ih _ holes (fun e' he' => hnb e' (List.mem_cons_of_mem _ he'))]
      simp [hnp]
    · have hc : 0 ≤ e.child := by
        rcases hnb e (List.mem_cons_self _ _) with h | h
        · exact absurd h hp
        · exact h
      have hplt : e.parent < 0 := not_le.1 hp
      simp only [classifyGo, if_neg hp, if_pos hc]
      rw [ih _ (holes ++ [cs.getD e.child.toNat []])
        (fun e' he' => hnb e' (List.mem_cons_of_mem _ he'))]
      simp [hplt, hc]

/-- C3 amended: when contour tracing yields several contours, the loop
classifies by the hierarchy rows in contour order, but a row with a
parent assigns the *parent* contour as the shell, and a row with a child
(and no parent) appends only its *first* child to the hole list. Hence,
as long as no row triggers the same-level break, the collected holes are
exactly the first children of the parentless child-bearing contours — in
particular for a two-level hierarchy of one shell followed by k hole
contours, exactly one interior ring (the shell's first child) is
collected, not k. -/
theorem classify_collects_first_children (cs : List Contour) (hs : List HierEntry)
    (hlen : hs.length = cs.length)
    (hnb : ∀ e ∈ hs, 0 ≤ e.parent ∨ 0 ≤ e.child) :
    ((classifyContours cs hs).2 =
      (hs.filter (fun e => decide (e.parent < 0) && decide (0 ≤ e.child))).map
        (fun e => cs.getD e.child.toNat [])) ∧
    (∀ e0 rest, hs = e0 :: rest → e0.parent < 0 → 0 ≤ e0.child →
      (∀ e ∈ rest, 0 ≤ e.parent) →
      (classifyContours cs hs).2 = [cs.getD e0.child.toNat []]) := by
  have htake : hs.take cs.length = hs := by
    rw [← hlen]
    exact List.take_length hs
  have hmain : (classifyContours cs hs).2 =
      (hs.filter (fun e => decide (e.parent < 0) && decide (0 ≤ e.child))).map
        (fun e => cs.getD e.child.toNat []) := by
    unfold classifyContours
    rw [htake, classifyGo_snd_of_no_break cs hs none [] hnb]
    rfl
  refine ⟨hmain, ?_⟩
  rintro e0 rest rfl hp0 hc0 hrest
  rw [hmain]
  have hfe : (e0 :: rest).filter
      (fun e => decide (e.parent < 0) && decide (0 ≤ e.child)) = [e0] := by
    rw [List.filter_cons]
    have h1 : (decide (e0.parent < 0) && decide (0 ≤ e0.child)) = true := by
      simp [hp0, hc0]
    rw [if_pos h1]
    have h2 : rest.filter (fun e => decide (e.parent < 0) && decide (0 ≤ e.child)) = [] := by
      apply List.filter_eq_nil_iff.2
      intro e he
      have := hrest e he
      simp [not_lt.2 this]
    rw [h2]
  rw [hfe]
  rfl

/-- A 7×7 raster containing one object (label 1) with two enclosed
single-pixel background regions, at (2, 2) and (4, 4). -/
def vC3 : Grid :=
  [[0, 0, 0, 0, 0, 0, 0],
   [0, 1, 1, 1, 1, 1, 0],
   [0, 1, 0, 1, 1, 1, 0],
   [0, 1, 1, 1, 1, 1, 0],
   [0, 1, 1, 1, 0, 1, 0],
   [0, 1, 1, 1, 1, 1, 0],
   [0, 0, 0, 0, 0, 0, 0]]

/-- The three contours cv2 traces for the crop of `vC3`: the outer shell
and the two single-pixel hole contours (crop coordinates coincide with
plane coordinates here since the bounding box starts at (1, 1)). -/
def csC3 : List Contour := [[(1, 1), (5, 1), (5, 5), (1, 5)], [(2, 2)], [(4, 4)]]

/-- The corresponding `RETR_CCOMP` hierarchy: contour 0 is the outer
shell with first child 1; contours 1 and 2 are holes with parent 0,
linked as siblings. -/
def hsC3 : List HierEntry := [⟨-1, -1, 1, -1⟩, ⟨2, -1, -1, 0⟩, ⟨-1, 1, -1, 0⟩]

/-- The geometry instance reproducing that trace. -/
def geoC3 : Geo :=
  ⟨fun _ => (csC3, hsC3), fun p _ => p, fun _ => true, fun p => SGeom.poly p,
   fun _ => 0, fun r c => (r, c)⟩

/-- The polygon `to_polygons geoC3 vC3 0 0 0` emits for label 1. -/
def pC3 : JPoly := ⟨[(1, -1), (5, -1), (5, -5), (1, -5)], [[(2, -2)]]⟩

/-- C3 counterexample: for the object of `vC3` with k = 2 enclosed
background regions (the hierarchy carries two hole rows, i.e. two rows
with a parent), the polygon emitted by `to_polygons` has exactly one
interior ring, not two — not every hole contour is collected. -/
theorem to_polygons_holes_counterexample :
    to_polygons geoC3 vC3 0 0 0 = .ok [((0, 0, 1), pC3)] ∧
    (hsC3.filter (fun e => decide (0 ≤ e.parent))).length = 2 ∧
    pC3.holes.length = 1 ∧
    ¬ pC3.holes.length = 2 :=
  ⟨rfl, rfl, rfl, by decide⟩

theorem classify_collects_first_children_witness :
    (classifyContours csC3 hsC3).2 = [csC3.getD 1 []] :=
  (classify_collects_first_children csC3 hsC3 (by decide) (by decide)).2
    ⟨-1, -1, 1, -1⟩ [⟨2, -1, -1, 0⟩, ⟨-1, 1, -1, 0⟩] rfl (by decide) (by decide)
    (by decide)

/-! ## Claim C8 -/

/-- C8: the per-label step of `to_polygons` signals the fatal error
naming the offending label exactly when the simplified polygon is
topologically invalid and remains invalid after the zero-distance buffer
repair; and the degenerate-but-recoverable cases are repaired locally
without raising — the zero-contour case always hands the
centroid-centered degenerate square to the validity step, and a
too-small shell is always replaced by the mask-centered degenerate
square (the same-level-siblings case likewise resolves to the largest
contour inside `classifyContours`), so the validity step is the only
error site. -/
theorem processLabel_error_iff (geo : Geo) (value plane : Grid) (label : Nat)
    (y_offset x_offset : Int) (tol : Nat) (p : JPoly)
    (hbuild : buildPolyForLabel geo value plane (mhBBox value label) label
        y_offset x_offset = some p) :
    (∀ e, processLabel geo value plane label y_offset x_offset tol = .error e ↔
      (e = .invalidPolygon label ∧
       geo.isValid (SGeom.poly (geo.simplify p tol)) = false ∧
       geo.isValid (geo.buffer0 (geo.simplify p tol)) = false)) ∧
    ((geo.findContours (labelMask plane (mhBBox value label) label)).1 = [] →
      buildPolyForLabel geo value plane (mhBBox value label) label y_offset x_offset
        = some (translatePoly (y_offset + Int.ofNat (mhBBox value label).y0 - 1)
            (x_offset + Int.ofNat (mhBBox value label).x0 - 1)
            (centroidSquare value label, []))) ∧
    (∀ sh, resolveShell geo value plane (mhBBox value label) label = some sh →
      sh.1.length < 3 →
      buildPolyForLabel geo value plane (mhBBox value label) label y_offset x_offset
        = some (translatePoly (y_offset + Int.ofNat (mhBBox value label).y0 - 1)
            (x_offset + Int.ofNat (mhBBox value label).x0 - 1)
            (halfSquare (extract_bbox_image plane (mhBBox value label)), sh.2))) := by
  refine ⟨?_, ?_, ?_⟩
  · intro e
    by_cases hv : geo.isValid (SGeom.poly (geo.simplify p tol)) = true
    · simp [processLabel, hbuild, validityGate, hv]
    · have hv' : geo.isValid (SGeom.poly (geo.simplify p tol)) = false :=
        Bool.not_eq_true _ ▸ hv
      by_cases hb : geo.isValid (geo.buffer0 (geo.simplify p tol)) = false
      · simp [processLabel, hbuild, validityGate, hv', hb, eq_comm]
      · have hb' : geo.isValid (geo.buffer0 (geo.simplify p tol)) = true := by
          cases hx : geo.isValid (geo.buffer0 (geo.simplify p tol))
          · exact absurd hx hb
          · rfl
        cases hbuf : geo.buffer0 (geo.simplify p tol) with
        | poly q =>
          rw [hbuf] at hb'
          simp [processLabel, hbuild, validityGate, hv', hb', hbuf]
        | multi qs =>
          rw [hbuf] at hb'
          simp [processLabel, hbuild, validityGate, hv', hb', hbuf]
  · intro hfc
    have hfix : fixSmallShell (extract_bbox_image plane (mhBBox value label))
        (centroidSquare value label, []) = (centroidSquare value label, []) := by
      simp [fixSmallShell, centroidSquare, squarePts]
    simp [buildPolyForLabel, resolveShell, hfc, hfix]
  · intro sh hres hsmall
    simp [buildPolyForLabel, hres, fixSmallShell, hsmall]

theorem processLabel_error_iff_witness :
    processLabel geoTriv vTiny (zeroBorder vTiny) 1 0 0 0
        = .error (.invalidPolygon 1) ↔
      (JtError.invalidPolygon 1 = .invalidPolygon 1 ∧
       geoTriv.isValid (SGeom.poly (geoTriv.simplify pTiny 0)) = false ∧
       geoTriv.isValid (geoTriv.buffer0 (geoTriv.simplify pTiny 0)) = false) :=
  (processLabel_error_iff geoTriv vTiny (zeroBorder vTiny) 1 0 0 0 pTiny rfl).1
    (.invalidPolygon 1)

/-! ## Claim C4 — infrastructure -/

theorem mem_labelPixels {g : Grid} {label i j : Nat} :
    (i, j) ∈ labelPixels g label ↔
      ∃ row, g.get? i = some row ∧ row.get? j = some label := by
  unfold labelPixels
  constructor
  · intro h
    rcases List.mem_bind.1 h with ⟨r, hr, hmem⟩
    rcases List.mem_map.1 hmem with ⟨c, hc, heq⟩
    have hi : r.1 = i := congrArg Prod.fst heq
    have hj : c.1 = j := congrArg Prod.snd heq
    have hrow : g.get? r.1 = some r.2 := List.mem_enum_iff_get?.1 hr
    rcases List.mem_filter.1 hc with ⟨hcm, hcv⟩
    have hcell : r.2.get? c.1 = some c.2 := List.mem_enum_iff_get?.1 hcm
    have hlab : c.2 = label := eq_of_beq hcv
    refine ⟨r.2, ?_, ?_⟩
    · rw [← hi]; exact hrow
    · rw [← hj, ← hlab]; exact hcell
  · rintro ⟨row, hrow, hcell⟩
    apply List.mem_bind.2
    refine ⟨(i, row), List.mem_enum_iff_get?.2 hrow, ?_⟩
    apply List.mem_map.2
    refine ⟨(j, label), ?_, rfl⟩
    apply List.mem_filter.2
    exact ⟨List.mem_enum_iff_get?.2 hcell, by simp⟩

theorem mem_objLabels {g : Grid} {l : Nat} :
    l ∈ objLabels g ↔ 0 < l ∧ l ∈ g.flatten := by
  unfold objLabels
  rw [mem_npUnique, List.mem_filter]
  constructor
  · rintro ⟨hf, hp⟩
    exact ⟨of_decide_eq_true hp, hf⟩
  · rintro ⟨hp, hf⟩
    exact ⟨hf, decide_eq_true hp⟩

theorem zeroBorder_elem {g : Grid} {row' : List Nat} {v : Nat}
    (hrow : row' ∈ zeroBorder g) (hv : v ∈ row') :
    v = 0 ∨ ∃ i j row, g.get? i = some row ∧ row.get? j = some v ∧
      ¬(i = 0 ∨ i = g.length - 1 ∨ j = 0 ∨ j = row.length - 1) := by
  unfold zeroBorder at hrow
  rcases mem_mapWithIdx hrow with ⟨i, row, hget, hrow'⟩
  subst hrow'
  rcases mem_mapWithIdx hv with ⟨j, u, hgetj, hveq⟩
  simp only [Nat.zero_add] at hveq
  by_cases hcond : i = 0 ∨ i = g.length - 1 ∨ j = 0 ∨ j = row.length - 1
  · left
    rw [hveq, if_pos hcond]
  · right
    refine ⟨i, j, row, hget, ?_, hcond⟩
    rw [hveq, if_neg hcond]
    exact hgetj

theorem extract_elem {g : Grid} {b : BBox} {row' : List Nat} {v : Nat}
    (hrow : row' ∈ extract_bbox_image g b) (hv : v ∈ row') :
    v = 0 ∨ ∃ row ∈ g, v ∈ row := by
  simp only [extract_bbox_image] at hrow
  rcases List.mem_append.1 hrow with h1 | h2
  · rcases List.mem_append.1 h1 with hp | hc
    · left
      have hpad := List.mem_singleton.1 hp
      subst hpad
      exact List.eq_of_mem_replicate hv
    · rcases List.mem_map.1 hc with ⟨r0, hr0, hre⟩
      subst hre
      rcases List.mem_cons.1 hv with rfl | hv'
      · left; rfl
      · rcases List.mem_append.1 hv' with hvr | hv0
        · right
          rcases List.mem_map.1 hr0 with ⟨row, hrowmem, hr0e⟩
          subst hr0e
          refine ⟨row, ?_, ?_⟩
          · exact List.drop_subset _ _ (List.take_subset _ _ hrowmem)
          · exact List.drop_subset _ _ (List.take_subset _ _ hvr)
        · left; exact List.mem_singleton.1 hv0
  · left
    have hpad := List.mem_singleton.1 h2
    subst hpad
    exact List.eq_of_mem_replicate hv

theorem labelMask_all_false {g : Grid} {b : BBox} {label : Nat}
    (hlab : label ≠ 0)
    (hborder : ∀ i j row, g.get? i = some row → row.get? j = some label →
      i = 0 ∨ i = g.length - 1 ∨ j = 0 ∨ j = row.length - 1) :
    ∀ r ∈ labelMask (zeroBorder g) b label, ∀ x ∈ r, x = false := by
  intro r hr x hx
  rcases List.mem_map.1 hr with ⟨row', hrow', hre⟩
  subst hre
  rcases List.mem_map.1 hx with ⟨v, hv, hxe⟩
  subst hxe
  rw [beq_eq_false_iff_ne]
  intro hveq
  subst hveq
  rcases extract_elem hrow' hv with h0 | ⟨rowz, hrz, hvz⟩
  · exact hlab h0
  · rcases zeroBorder_elem hrz hvz with h0 | ⟨i, j, row, hget, hcell, hnb⟩
    · exact hlab h0
    · exact hnb (hborder i j row hget hcell)

theorem countP_eq_one_of_nodup {ls : List Nat} (hnd : ls.Nodup) {l : Nat}
    (hl : l ∈ ls) : ls.countP (fun x => decide (x = l)) = 1 := by
  induction ls with
  | nil => cases hl
  | cons a t ih =>
    rw [List.countP_cons]
    rcases List.mem_cons.1 hl with rfl | hmem
    · have h0 : t.countP (fun x => decide (x = l)) = 0 := by
        rw [List.countP_eq_zero]
        intro b hb
        have hne : b ≠ l := fun h => (List.nodup_cons.1 hnd).1 (h ▸ hb)
        simp [hne]
      simp [h0]
    · have ha : ¬ a = l := fun h => (List.nodup_cons.1 hnd).1 (h ▸ hmem)
      rw [ih (List.nodup_cons.1 hnd).2 hmem]
      simp [ha]

theorem countP_key {m : List ((Nat × Nat × Nat) × JPoly)} {ls : List Nat}
    (hk : m.map Prod.fst = ls.map (fun l => ((0, 0, l) : Nat × Nat × Nat)))
    (hnd : ls.Nodup) {l : Nat} (hl : l ∈ ls) :
    m.countP (fun e => decide (e.1 = ((0, 0, l) : Nat × Nat × Nat))) = 1 := by
  have h1 : m.countP (fun e => decide (e.1 = ((0, 0, l) : Nat × Nat × Nat)))
      = (m.map Prod.fst).countP
          (fun k => decide (k = ((0, 0, l) : Nat × Nat × Nat))) := by
    rw [List.countP_map]
    rfl
  rw [h1, hk, List.countP_map]
  have h2 : ((fun k => decide (k = ((0, 0, l) : Nat × Nat × Nat)))
        ∘ (fun l' => ((0, 0, l') : Nat × Nat × Nat)))
      = fun l' => decide (l' = l) := by
    funext l'
    exact decide_eq_decide.2 (by simp)
  rw [h2]
  exact countP_eq_one_of_nodup hnd hl

/-! ## Claim C4 -/

/-- A closed 4-corner ring listing an axis-aligned square of side 2:
the four corners are pairwise distinct (since `u < u + 2` and
`v - 2 < v`) and consecutive edges meet only at shared endpoints, so the
ring is non-self-intersecting. -/
def IsSquareRingPts (s : List Pt) : Prop :=
  ∃ u v : Int, s = [(u, v), (u + 2, v), (u + 2, v - 2), (u, v - 2), (u, v)]

theorem square_shell_is_ring (x y add_y add_x : Int) :
    IsSquareRingPts ((squarePts x y).map (translatePt add_y add_x)) := by
  refine ⟨x - 1 + add_x, -(y - 1 + add_y), ?_⟩
  simp [squarePts, translatePt, Prod.ext_iff]
  omega

/-- The polygon the zero-contour fallback actually emits for a label:
the degenerate square at the label's pixel centroid, passed through the
uniform crop-frame translation `add_y = y_offset + bbox[0] - 1`,
`add_x = x_offset + bbox[2] - 1` (even though the centroid coordinates
are already plane-frame), with no holes. -/
def borderFallbackPoly (value : Grid) (label : Nat) (y_offset x_offset : Int) :
    JPoly :=
  translatePoly (y_offset + Int.ofNat (mhBBox value label).y0 - 1)
    (x_offset + Int.ofNat (mhBBox value label).x0 - 1)
    (centroidSquare value label, [])

/-- The polygon claim C4 describes: the degenerate unit square centered
on the label's pixel centroid, carried to global coordinates by the
global offsets and the y-axis inversion alone. -/
def claimCentroidSquare (value : Grid) (label : Nat) (y_offset x_offset : Int) :
    JPoly :=
  ⟨(centroidSquare value label).map (translatePt y_offset x_offset), []⟩

/-- A 4×4 raster whose single object (label 1) is one pixel at (0, 2) on
the top border row — it lies entirely within the outermost pixel ring. -/
def vC4 : Grid := [[0, 0, 1, 0], [0, 0, 0, 0], [0, 0, 0, 0], [0, 0, 0, 0]]

/-- The polygon `to_polygons geoTriv vC4 0 0 0` emits for label 1. -/
def pC4 : JPoly := ⟨[(2, 2), (4, 2), (4, 0), (2, 0), (2, 2)], []⟩

/-- C4 counterexample: for the border-only object of `vC4` (zero offsets,
tolerance 0), `to_polygons` does emit exactly one polygon, but it is not
the degenerate unit square centered on the pixel centroid: the emitted
square is additionally shifted by the crop translation
`(bbox_min - 1) = (-1, 1)`, so its x-extent is [2, 4] instead of the
centroid-centered [1, 3]. -/
theorem border_fallback_not_centroid_centered :
    to_polygons geoTriv vC4 0 0 0 = .ok [((0, 0, 1), pC4)] ∧
    pC4 ≠ claimCentroidSquare vC4 1 0 0 :=
  ⟨rfl, by decide⟩

/-- C4 amended: for every raster in which some label's pixels lie
entirely within the outermost one-pixel ring, and for any contour tracer
that finds no contours on an all-background mask (as cv2 does),
simplification that keeps the original polygon at tolerance 0 (as the
source docstring states) and a validity test accepting the square,
`to_polygons` with tolerance 0 still emits exactly one polygon for that
label: the degenerate square built at the centroid of all original
raster pixels carrying the label (not of the zeroed crop), *translated
by the crop offset `bbox_min - 1` in addition to the global offsets* —
centered on the shifted centroid rather than on the centroid itself —
and that polygon is a valid, non-self-intersecting closed 4-corner
square ring with no interior rings. -/
theorem to_polygons_border_only_fallback (geo : Geo) (value : Grid) (label : Nat)
    (y_offset x_offset : Int) (m : List ((Nat × Nat × Nat) × JPoly))
    (hmem : label ∈ objLabels value)
    (hborder : ∀ p ∈ labelPixels value label,
      p.1 = 0 ∨ p.1 = value.length - 1 ∨ p.2 = 0 ∨
        p.2 = (value.getD p.1 []).length - 1)
    (hFC : ∀ mk : List (List Bool), (∀ r ∈ mk, ∀ x ∈ r, x = false) →
      geo.findContours mk = ([], []))
    (hS : ∀ p, geo.simplify p 0 = p)
    (hV : geo.isValid
      (SGeom.poly (borderFallbackPoly value label y_offset x_offset)) = true)
    (hok : to_polygons geo value y_offset x_offset 0 = .ok m) :
    ((0, 0, label), borderFallbackPoly value label y_offset x_offset) ∈ m ∧
    m.countP (fun e => decide (e.1 = ((0, 0, label) : Nat × Nat × Nat))) = 1 ∧
    IsSquareRingPts (borderFallbackPoly value label y_offset x_offset).shell ∧
    (borderFallbackPoly value label y_offset x_offset).holes = [] := by
  have hok' : to_polygonsGo geo value (zeroBorder value) y_offset x_offset 0
      (objLabels value) = .ok m := hok
  have hlab0 : label ≠ 0 := by
    have := (mem_objLabels.1 hmem).1
    omega
  have hborder' : ∀ i j row, value.get? i = some row → row.get? j = some label →
      i = 0 ∨ i = value.length - 1 ∨ j = 0 ∨ j = row.length - 1 := by
    intro i j row hget hcell
    have hpix : (i, j) ∈ labelPixels value label :=
      mem_labelPixels.2 ⟨row, hget, hcell⟩
    have h := hborder (i, j) hpix
    have hrow : value.getD i [] = row := by
      rw [List.getD_eq_get?, hget]
      rfl
    rw [hrow] at h
    exact h
  have hmaskF := labelMask_all_false (g := value) (b := mhBBox value label)
    hlab0 hborder'
  have hfc : geo.findContours
      (labelMask (zeroBorder value) (mhBBox value label) label) = ([], []) :=
    hFC _ hmaskF
  have hfc1 : (geo.findContours
      (labelMask (zeroBorder value) (mhBBox value label) label)).1 = [] := by
    rw [hfc]
  have hfix : fixSmallShell (extract_bbox_image (zeroBorder value) (mhBBox value label))
      (centroidSquare value label, []) = (centroidSquare value label, []) := by
    simp [fixSmallShell, centroidSquare, squarePts]
  have hbuild : buildPolyForLabel geo value (zeroBorder value) (mhBBox value label)
      label y_offset x_offset
      = some (borderFallbackPoly value label y_offset x_offset) := by
    simp [buildPolyForLabel, resolveShell, hfc1, hfix, borderFallbackPoly]
  have hproc : processLabel geo value (zeroBorder value) label y_offset x_offset 0
      = .ok (borderFallbackPoly value label y_offset x_offset) := by
    simp [processLabel, hbuild, validityGate, hS, hV]
  refine ⟨?_, ?_, ?_, rfl⟩
  · exact (to_polygonsGo_ok_mem hok' _ _).2 ⟨label, hmem, rfl, hproc⟩
  · exact countP_key (to_polygonsGo_ok_keys hok') (npUnique_nodup _) hmem
  · exact square_shell_is_ring _ _ _ _

theorem to_polygons_border_only_fallback_witness :
    ((0, 0, 1), borderFallbackPoly vC4 1 0 0) ∈ [((0, 0, 1), pC4)] ∧
    ([((0, 0, 1), pC4)] : List ((Nat × Nat × Nat) × JPoly)).countP
        (fun e => decide (e.1 = ((0, 0, 1) : Nat × Nat × Nat))) = 1 ∧
    IsSquareRingPts (borderFallbackPoly vC4 1 0 0).shell ∧
    (borderFallbackPoly vC4 1 0 0).holes = [] :=
  to_polygons_border_only_fallback geoTriv vC4 1 0 0 [((0, 0, 1), pC4)]
    (by decide) (by decide) (fun _ _ => rfl) (fun _ => rfl) rfl rfl

/-! ## Rasterization engine — `SegmentedObjects.from_polygons`
(handles.py lines 475-508) -/

/-- The numpy error surfaced by the assignment `array[y, x, z, t] = label`:
indexing a target of fewer than four axes with four indices, or an index
outside `[-dim, dim)`. -/
inductive NpError where
  | indexError
deriving DecidableEq

/-- A numpy integer array: a shape and a total map from index lists to
values (only indexed reads and writes matter to the claims). -/
structure NpArr where
  shape : List Nat
  data : List Nat → Nat

/-- `np.zeros(dimensions, dtype=np.int32)`. -/
def zerosArr (dims : List Nat) : NpArr := ⟨dims, fun _ => 0⟩

/-- numpy index semantics on one axis: `0 ≤ i < d` stands, a negative
`-d ≤ i < 0` wraps to `i + d`, anything else is an `IndexError`. -/
def wrapIdx (d : Nat) (i : Int) : Option Nat :=
  if 0 ≤ i ∧ i < (d : Int) then some i.toNat
  else if -(d : Int) ≤ i ∧ i < 0 then some (i + d).toNat
  else none

/-- Resolve every drawn `(row, col)` pixel pair against the first two
axes, failing if any is out of range. -/
def resolvePixels (d0 d1 : Nat) : List (Int × Int) → Option (List (Nat × Nat))
  | [] => some []
  | rc :: rest =>
    match wrapIdx d0 rc.1, wrapIdx d1 rc.2 with
    | some r, some c =>
      match resolvePixels d0 d1 rest with
      | some l => some ((r, c) :: l)
      | none => none
    | _, _ => none

/-- `coordinates = np.array(poly.exterior.coords).astype(int)`,
`x, y = np.split(coordinates, 2, axis=1)`, `x -= x_offset`,
`y -= y_offset`, `y, x = skimage.draw.polygon(y, x)` (handles.py lines
500-505): the drawn pixel pairs of one polygon. Only the exterior ring is
used — holes are not subtracted. Coordinates are already integers in the
embedding, so `astype(int)` is the identity, and so is the
database-geometry conversion `to_shape`. -/
def entryPixels (geo : Geo) (p : JPoly) (y_offset x_offset : Int) :
    List (Int × Int) :=
  let rc := geo.drawPolygon (p.shell.map (fun q => q.2 - y_offset))
      (p.shell.map (fun q => q.1 - x_offset))
  rc.1.zip rc.2

/-- Write `label` at `[r, c, z, t]` for every resolved pixel pair. -/
def writeCells (z t label : Nat) :
    List (Nat × Nat) → (List Nat → Nat) → (List Nat → Nat)
  | [], data => data
  | rc :: rest, data =>
    writeCells z t label rest
      (fun idx => if idx = [rc.1, rc.2, z, t] then label else data idx)

/-- One iteration of the `for (t, z, label), poly in polygons.iteritems()`
loop: `array[y, x, z, t] = label`. The assignment indexes the target with
four indices, so it needs a rank-4 target (otherwise numpy raises
`IndexError: too many indices`; ranks above four never occur in the
engine and are folded into the same error case), in-range scalar plane
indices, and in-range (after numpy's negative wrapping) pixel indices. -/
def rasterizeOne (geo : Geo) (y_offset x_offset : Int) (a : NpArr)
    (e : (Nat × Nat × Nat) × JPoly) : Except NpError NpArr :=
  match a.shape with
  | [d0, d1, d2, d3] =>
    if e.1.2.1 < d2 ∧ e.1.1 < d3 then
      match resolvePixels d0 d1 (entryPixels geo e.2 y_offset x_offset) with
      | some cells =>
        .ok ⟨[d0, d1, d2, d3], writeCells e.1.2.1 e.1.1 e.1.2.2 cells a.data⟩
      | none => .error .indexError
    else .error .indexError
  | _ => .error .indexError

/-- The polygon loop of `from_polygons`, in input order (the source
iterates a Python dict; the embedding takes the entry list as given,
which is the ordering ambiguity the spec itself flags). -/
def from_polygonsGo (geo : Geo) (y_offset x_offset : Int) :
    List ((Nat × Nat × Nat) × JPoly) → NpArr → Except NpError NpArr
  | [], a => .ok a
  | e :: rest, a =>
    match rasterizeOne geo y_offset x_offset a e with
    | .error err => .error err
    | .ok a' => from_polygonsGo geo y_offset x_offset rest a'

/-- Reading a squeezed array re-inserts a 0 index for every dropped
extent-1 axis. -/
def unsqueezeIdx : List Nat → List Nat → List Nat
  | [], _ => []
  | 1 :: s, idx => 0 :: unsqueezeIdx s idx
  | _ :: s, [] => 0 :: unsqueezeIdx s []
  | _ :: s, i :: idx => i :: unsqueezeIdx s idx

/-- `np.squeeze`: drop every axis of extent 1. -/
def npSqueeze (a : NpArr) : NpArr :=
  ⟨a.shape.filter (fun d => decide (d ≠ 1)),
   fun idx => a.data (unsqueezeIdx a.shape idx)⟩

/-- The state of a `SegmentedObjects` handle as far as `from_polygons`
touches it: its name and its stored raster `self.value`. -/
structure SegmentedObjectsH where
  objName : String
  value : NpArr

/-- `SegmentedObjects.from_polygons(polygons, y_offset, x_offset,
dimensions)` (handles.py lines 475-508): allocate `np.zeros(dimensions)`,
fill every polygon's exterior, then `self.value = np.squeeze(array)` and
`return self.value` — the call yields the updated handle state together
with the returned array. -/
def from_polygons (geo : Geo) (st : SegmentedObjectsH)
    (polygons : List ((Nat × Nat × Nat) × JPoly)) (y_offset x_offset : Int)
    (dims : List Nat) : Except NpError (SegmentedObjectsH × NpArr) :=
  match from_polygonsGo geo y_offset x_offset polygons (zerosArr dims) with
  | .error e => .error e
  | .ok arr => .ok ({ st with value := npSqueeze arr }, npSqueeze arr)

/-- Whether `Except` computation succeeded. -/
def exceptIsOk : Except ε α → Bool
  | .ok _ => true
  | .error _ => false

/-- The reconstructed (pre-squeeze) array read at an index, or 0 when the
reconstruction failed. -/
def runData (geo : Geo) (y_offset x_offset : Int)
    (polys : List ((Nat × Nat × Nat) × JPoly)) (dims : List Nat)
    (idx : List Nat) : Nat :=
  match from_polygonsGo geo y_offset x_offset polys (zerosArr dims) with
  | .ok arr => arr.data idx
  | .error _ => 0

/-- Whether a polygon entry covers a raster cell: the cell's plane is the
entry's `(z, t)` plane and the cell is among the entry's resolved drawn
pixels. -/
def coversCell (geo : Geo) (y_offset x_offset : Int) (d0 d1 : Nat)
    (e : (Nat × Nat × Nat) × JPoly) (y x z t : Nat) : Bool :=
  match resolvePixels d0 d1 (entryPixels geo e.2 y_offset x_offset) with
  | some cells =>
    decide ((y, x) ∈ cells) && decide (z = e.1.2.1) && decide (t = e.1.1)
  | none => false

/-- The claim's "label of whichever polygon was processed last": fold the
entries in processing order, keeping the label of the last entry that
covers the cell (0, background, if none does). -/
def lastWriteLabel (geo : Geo) (y_offset x_offset : Int) (d0 d1 : Nat)
    (polys : List ((Nat × Nat × Nat) × JPoly)) (y x z t : Nat) : Nat :=
  polys.foldl
    (fun acc e =>
      if coversCell geo y_offset x_offset d0 d1 e y x z t then e.1.2.2 else acc) 0

/-! ## Claim C9 -/

theorem writeCells_apply (z t label : Nat) (cells : List (Nat × Nat))
    (data : List Nat → Nat) (y x z' t' : Nat) :
    writeCells z t label cells data [y, x, z', t'] =
      if (y, x) ∈ cells ∧ z' = z ∧ t' = t then label
      else data [y, x, z', t'] := by
  induction cells generalizing data with
  | nil => simp [writeCells]
  | cons rc rest ih =>
    simp only [writeCells]
    rw [ih]
    by_cases hm : (y, x) ∈ rest ∧ z' = z ∧ t' = t
    · rw [if_pos hm, if_pos ⟨List.mem_cons_of_mem _ hm.1, hm.2⟩]
    · rw [if_neg hm]
      by_cases hr : ([y, x, z', t'] : List Nat) = [rc.1, rc.2, z, t]
      · have hcomp : y = rc.1 ∧ x = rc.2 ∧ z' = z ∧ t' = t := by
          simpa using hr
        have hyx : (y, x) = rc := by
          rw [hcomp.1, hcomp.2.1]
        rw [if_pos hr,
          if_pos ⟨hyx ▸ List.mem_cons_self rc rest, hcomp.2.2.1, hcomp.2.2.2⟩]
      · rw [if_neg hr, if_neg ?_]
        rintro ⟨hmem, hz, ht⟩
        rcases List.mem_cons.1 hmem with he | hrest
        · refine hr ?_
          have h1 : y = rc.1 := congrArg Prod.fst he
          have h2 : x = rc.2 := congrArg Prod.snd he
          rw [h1, h2, hz, ht]
        · exact hm ⟨hrest, hz, ht⟩

theorem from_polygonsGo_lastWrite (geo : Geo) (y_offset x_offset : Int)
    (d0 d1 d2 d3 : Nat) :
    ∀ (polys : List ((Nat × Nat × Nat) × JPoly)) (a : NpArr),
    a.shape = [d0, d1, d2, d3] →
    (∀ e ∈ polys,
      (resolvePixels d0 d1 (entryPixels geo e.2 y_offset x_offset)).isSome
        ∧ e.1.2.1 < d2 ∧ e.1.1 < d3) →
    ∃ arr, from_polygonsGo geo y_offset x_offset polys a = .ok arr ∧
      arr.shape = [d0, d1, d2, d3] ∧
      ∀ y x z t, arr.data [y, x, z, t] =
        polys.foldl
          (fun acc e =>
            if coversCell geo y_offset x_offset d0 d1 e y x z t then e.1.2.2
            else acc)
          (a.data [y, x, z, t]) := by
  intro polys
  induction polys with
  | nil =>
    intro a hsh _
    exact ⟨a, rfl, hsh, fun y x z t => rfl⟩
  | cons e rest ih =>
    intro a hsh hin
    have he := hin e (List.mem_cons_self _ _)
    cases hres : resolvePixels d0 d1 (entryPixels geo e.2 y_offset x_offset) with
    | none =>
      rw [hres] at he
      simp at he
    | some cells =>
      have hone : rasterizeOne geo y_offset x_offset a e =
          .ok ⟨[d0, d1, d2, d3],
            writeCells e.1.2.1 e.1.1 e.1.2.2 cells a.data⟩ := by
        simp [rasterizeOne, hsh, he.2, hres]
      rcases ih ⟨[d0, d1, d2, d3], writeCells e.1.2.1 e.1.1 e.1.2.2 cells a.data⟩
          rfl (fun e' he' => hin e' (List.mem_cons_of_mem _ he'))
        with ⟨arr, hgo, hshape, hdata⟩
      refine ⟨arr, ?_, hshape, ?_⟩
      · simp only [from_polygonsGo, hone]
        exact hgo
      · intro y x z t
        rw [hdata y x z t]
        rw [List.foldl_cons]
        congr 1
        show writeCells e.1.2.1 e.1.1 e.1.2.2 cells a.data [y, x, z, t] = _
        rw [writeCells_apply]
        have hcov : coversCell geo y_offset x_offset d0 d1 e y x z t =
            ((decide ((y, x) ∈ cells) && decide (z = e.1.2.1))
              && decide (t = e.1.1)) := by
          unfold coversCell
          rw [hres]
        rw [hcov]
        simp only [Bool.and_eq_true, decide_eq_true_eq]
        by_cases hall : (y, x) ∈ cells ∧ z = e.1.2.1 ∧ t = e.1.1
        · rw [if_pos hall, if_pos ⟨⟨hall.1, hall.2.1⟩, hall.2.2⟩]
        · rw [if_neg hall, if_neg (fun hc => hall ⟨hc.1.1, hc.1.2, hc.2⟩)]

/-- C9: processing a polygon list in its given order, every raster cell
of the reconstruction holds the label of whichever covering polygon was
processed last, and no conflict is ever reported — the loop and the full
`from_polygons` call succeed whenever every entry's drawn pixels and
plane indices are in range, overlapping or not. -/
theorem from_polygons_last_write_wins (geo : Geo) (st : SegmentedObjectsH)
    (y_offset x_offset : Int) (d0 d1 d2 d3 : Nat)
    (polys : List ((Nat × Nat × Nat) × JPoly))
    (hin : ∀ e ∈ polys,
      (resolvePixels d0 d1 (entryPixels geo e.2 y_offset x_offset)).isSome
        ∧ e.1.2.1 < d2 ∧ e.1.1 < d3) :
    exceptIsOk (from_polygonsGo geo y_offset x_offset polys
        (zerosArr [d0, d1, d2, d3])) = true ∧
    (∀ y x z t, runData geo y_offset x_offset polys [d0, d1, d2, d3] [y, x, z, t]
        = lastWriteLabel geo y_offset x_offset d0 d1 polys y x z t) ∧
    exceptIsOk (from_polygons geo st polys y_offset x_offset [d0, d1, d2, d3])
      = true := by
  rcases from_polygonsGo_lastWrite geo y_offset x_offset d0 d1 d2 d3 polys
      (zerosArr [d0, d1, d2, d3]) rfl hin with ⟨arr, hgo, _, hdata⟩
  refine ⟨?_, ?_, ?_⟩
  · rw [hgo]; rfl
  · intro y x z t
    unfold runData
    rw [hgo]
    exact hdata y x z t
  · unfold from_polygons
    rw [hgo]
    rfl

/-- Two polygons whose drawn regions share the cell (1, 1). -/
def e1C9 : (Nat × Nat × Nat) × JPoly := ((0, 0, 1), ⟨[(1, 1), (1, 2), (2, 2)], []⟩)

def e2C9 : (Nat × Nat × Nat) × JPoly := ((0, 0, 2), ⟨[(1, 1), (3, 2), (3, 3)], []⟩)

/-- A handle state used by concrete evaluations. -/
def stH : SegmentedObjectsH := ⟨"nuclei", zerosArr [1]⟩

theorem from_polygons_last_write_wins_witness :
    exceptIsOk (from_polygonsGo geoTriv 0 0 [e1C9, e2C9]
        (zerosArr [4, 4, 1, 1])) = true ∧
    runData geoTriv 0 0 [e1C9, e2C9] [4, 4, 1, 1] [1, 1, 0, 0]
        = lastWriteLabel geoTriv 0 0 4 4 [e1C9, e2C9] 1 1 0 0 ∧
    lastWriteLabel geoTriv 0 0 4 4 [e1C9, e2C9] 1 1 0 0 = 2 :=
  ⟨(from_polygons_last_write_wins geoTriv stH 0 0 4 4 1 1 [e1C9, e2C9]
      (by decide)).1,
   (from_polygons_last_write_wins geoTriv stH 0 0 4 4 1 1 [e1C9, e2C9]
      (by decide)).2.1 1 1 0 0,
   by decide⟩

/-! ## Claim C10 -/

/-- C10: every successful `from_polygons` call not only returns the
squeezed reconstructed array but also overwrites the handle's stored
raster with it: afterwards the handle's `value` equals the returned
array, the rest of the handle state is untouched, and the previously
held raster plays no role — any prior state leads to the same stored
raster and return value. -/
theorem from_polygons_overwrites_value (geo : Geo) (st : SegmentedObjectsH)
    (polys : List ((Nat × Nat × Nat) × JPoly)) (y_offset x_offset : Int)
    (dims : List Nat) (pr : SegmentedObjectsH × NpArr)
    (h : from_polygons geo st polys y_offset x_offset dims = .ok pr) :
    pr.1.value = pr.2 ∧ pr.1.objName = st.objName ∧
    ∀ st2 : SegmentedObjectsH,
      from_polygons geo st2 polys y_offset x_offset dims =
        .ok ({ st2 with value := pr.2 }, pr.2) := by
  unfold from_polygons at h
  cases hgo : from_polygonsGo geo y_offset x_offset polys (zerosArr dims) with
  | error e =>
    rw [hgo] at h
    cases h
  | ok arr =>
    rw [hgo] at h
    cases h
    refine ⟨rfl, rfl, fun st2 => ?_⟩
    unfold from_polygons
    rw [hgo]

/-- A second handle state, used to witness state-independence. -/
def stH2 : SegmentedObjectsH := ⟨"cells", zerosArr [5]⟩

/-- The pair returned by a concrete empty-input reconstruction. -/
def prC10 : SegmentedObjectsH × NpArr :=
  ({ stH with value := npSqueeze (zerosArr [2, 3, 1, 1]) },
   npSqueeze (zerosArr [2, 3, 1, 1]))

theorem from_polygons_overwrites_value_witness :
    prC10.1.value = prC10.2 ∧ prC10.1.objName = stH.objName ∧
    from_polygons geoTriv stH2 [] 0 0 [2, 3, 1, 1] =
      .ok ({ stH2 with value := prC10.2 }, prC10.2) :=
  ⟨(from_polygons_overwrites_value geoTriv stH [] 0 0 [2, 3, 1, 1] prC10 rfl).1,
   (from_polygons_overwrites_value geoTriv stH [] 0 0 [2, 3, 1, 1] prC10 rfl).2.1,
   (from_polygons_overwrites_value geoTriv stH [] 0 0 [2, 3, 1, 1] prC10 rfl).2.2 stH2⟩

/-! ## Claim C1 -/

/-- A 5×5 raster with one compact object: a 2×2 block of label 1 at rows
2-3, cols 2-3, not touching the raster border. -/
def vC1 : Grid :=
  [[0, 0, 0, 0, 0],
   [0, 0, 0, 0, 0],
   [0, 0, 1, 1, 0],
   [0, 0, 1, 1, 0],
   [0, 0, 0, 0, 0]]

/-- A geometry instance tracing the single 4-corner contour of that
block in crop coordinates. -/
def geoC1 : Geo :=
  ⟨fun _ => ([[(1, 1), (1, 2), (2, 2), (2, 1)]], [⟨-1, -1, -1, -1⟩]),
   fun p _ => p, fun _ => true, fun p => SGeom.poly p, fun _ => 0,
   fun r c => (r, c)⟩

/-- The polygon `to_polygons geoC1 vC1 0 0 0` produces for label 1. -/
def pC1 : JPoly := ⟨[(2, -2), (2, -3), (3, -3), (3, -2)], []⟩

/-- C1 counterexample: for the compact object of `vC1`, the round trip
exactly as the claim states it — zero offsets, tolerance 0 and the 2-D
`R.shape = (5, 5)` as dimensions — does not return a raster at all: the
rasterization raises `IndexError`, because `array[y, x, z, t]` indexes
the 2-D target with four indices. -/
theorem round_trip_as_stated_raises :
    to_polygons geoC1 vC1 0 0 0 = .ok [((0, 0, 1), pC1)] ∧
    from_polygons geoC1 stH [((0, 0, 1), pC1)] 0 0 [5, 5] = .error .indexError :=
  ⟨rfl, rfl⟩

/-- C1 amended: `from_polygons(to_polygons(R, 0, 0, tolerance=0), 0, 0,
R.shape)` with the 2-D shape of a single-plane raster raises
`IndexError` whenever R contains at least one object (the assignment
`array[y, x, z, t] = label` needs a 4-D target); only for an
all-background R does the call return, and then it returns an
all-background raster of shape `R.shape`, so the distinct label sets
(both empty) and the per-label pixel counts (vacuously) agree exactly. -/
theorem round_trip_shape_mismatch (geo : Geo) (st : SegmentedObjectsH)
    (value : Grid) (h w : Nat) (P : List ((Nat × Nat × Nat) × JPoly))
    (hok : to_polygons geo value 0 0 0 = .ok P) :
    (objLabels value ≠ [] →
      from_polygons geo st P 0 0 [h, w] = .error .indexError) ∧
    (objLabels value = [] →
      from_polygons geo st P 0 0 [h, w] =
          .ok ({ st with value := npSqueeze (zerosArr [h, w]) },
            npSqueeze (zerosArr [h, w])) ∧
        ∀ idx, (npSqueeze (zerosArr [h, w])).data idx = 0) := by
  have hk := to_polygonsGo_ok_keys hok
  constructor
  · intro hne
    cases hP : P with
    | nil =>
      rw [hP] at hk
      have hemp : objLabels value = [] := by
        cases hl : objLabels value with
        | nil => rfl
        | cons a t =>
          rw [hl] at hk
          simp at hk
      exact absurd hemp hne
    | cons e rest => rfl
  · intro hempty
    have hP : P = [] := by
      rw [hempty] at hk
      cases hPc : P with
      | nil => rfl
      | cons e rest =>
        rw [hPc] at hk
        simp at hk
    subst hP
    exact ⟨rfl, fun idx => rfl⟩

/-- An all-background raster. -/
def vZeros : Grid := [[0, 0], [0, 0]]

theorem round_trip_shape_mismatch_witness :
    from_polygons geoC1 stH [((0, 0, 1), pC1)] 0 0 [5, 5]
        = .error .indexError ∧
    from_polygons geoTriv stH [] 0 0 [2, 2] =
        .ok ({ stH with value := npSqueeze (zerosArr [2, 2]) },
          npSqueeze (zerosArr [2, 2])) ∧
    (npSqueeze (zerosArr [2, 2])).data [0, 0] = 0 :=
  ⟨(round_trip_shape_mismatch geoC1 stH vC1 5 5 [((0, 0, 1), pC1)] rfl).1
      (by decide),
   ((round_trip_shape_mismatch geoTriv stH vZeros 2 2 [] rfl).2 rfl).1,
   ((round_trip_shape_mismatch geoTriv stH vZeros 2 2 [] rfl).2 rfl).2 [0, 0]⟩
